import Mathlib

/-! Formal model of the svg3d renderer pipeline (`src/main.rs`).

Scalars are modelled exactly: the `f32` arithmetic of the source is embedded as
exact rational arithmetic (`ℚ`) for the structural and algebraic claims, and as
an extended value type `F32` (finite rationals, signed infinities, NaN) where
the IEEE-754 special values are the point of the claim. The real-valued
trigonometry of the perspective matrix is modelled over `ℝ`.
-/

namespace Svg3d

/-- Three-component point (`nalgebra::Point3`). -/
structure Point3 (α : Type) where
  x : α
  y : α
  z : α
deriving DecidableEq, Repr

/-- Three-component vector (`nalgebra::Vector3`). -/
structure Vector3 (α : Type) where
  x : α
  y : α
  z : α
deriving DecidableEq, Repr

/-- A face, `type Face = [Point3<f32>; 3]` — exactly three points. -/
structure Face (α : Type) where
  p1 : Point3 α
  p2 : Point3 α
  p3 : Point3 α
deriving DecidableEq, Repr

/-- Point difference `p - q`, yielding a vector (nalgebra subtraction of points). -/
def Point3.vsub {α : Type} [Sub α] (p q : Point3 α) : Vector3 α :=
  ⟨p.x - q.x, p.y - q.y, p.z - q.z⟩

/-- The nalgebra cross product of 3-vectors; index `[2]` below is the `z` field. -/
def Vector3.cross {α : Type} [Sub α] [Mul α] (a b : Vector3 α) : Vector3 α :=
  ⟨a.y * b.z - a.z * b.y, a.z * b.x - a.x * b.z, a.x * b.y - a.y * b.x⟩

/-- `fn winding(face: &Face) -> f32`: `(p2 - p1).cross(&(p3 - p1))[2]`. -/
def winding {α : Type} [Sub α] [Mul α] (face : Face α) : α :=
  ((face.p2.vsub face.p1).cross (face.p3.vsub face.p1)).z

/-- Homogeneous 4-component vector, the result of `to_homogeneous` on a point. -/
structure Vec4 (α : Type) where
  x : α
  y : α
  z : α
  w : α
deriving DecidableEq, Repr

/-- `Point3::to_homogeneous()`: append `w = 1`. -/
def Point3.to_homogeneous {α : Type} [One α] (p : Point3 α) : Vec4 α :=
  ⟨p.x, p.y, p.z, 1⟩

/-- Row-major 4×4 matrix (`nalgebra::Matrix4`); `mab` is row `a`, column `b`. -/
structure Mat4 (α : Type) where
  m00 : α
  m01 : α
  m02 : α
  m03 : α
  m10 : α
  m11 : α
  m12 : α
  m13 : α
  m20 : α
  m21 : α
  m22 : α
  m23 : α
  m30 : α
  m31 : α
  m32 : α
  m33 : α
deriving DecidableEq, Repr

/-- Matrix–vector product `m * v` on homogeneous coordinates. -/
def Mat4.mulVec {α : Type} [Add α] [Mul α] (m : Mat4 α) (v : Vec4 α) : Vec4 α :=
  ⟨m.m00 * v.x + m.m01 * v.y + m.m02 * v.z + m.m03 * v.w,
   m.m10 * v.x + m.m11 * v.y + m.m12 * v.z + m.m13 * v.w,
   m.m20 * v.x + m.m21 * v.y + m.m22 * v.z + m.m23 * v.w,
   m.m30 * v.x + m.m31 * v.y + m.m32 * v.z + m.m33 * v.w⟩

/-- Matrix–matrix product, used for `projection.to_homogeneous() * view.to_homogeneous()`. -/
def Mat4.mul {α : Type} [Add α] [Mul α] (a b : Mat4 α) : Mat4 α :=
  ⟨a.m00 * b.m00 + a.m01 * b.m10 + a.m02 * b.m20 + a.m03 * b.m30,
   a.m00 * b.m01 + a.m01 * b.m11 + a.m02 * b.m21 + a.m03 * b.m31,
   a.m00 * b.m02 + a.m01 * b.m12 + a.m02 * b.m22 + a.m03 * b.m32,
   a.m00 * b.m03 + a.m01 * b.m13 + a.m02 * b.m23 + a.m03 * b.m33,
   a.m10 * b.m00 + a.m11 * b.m10 + a.m12 * b.m20 + a.m13 * b.m30,
   a.m10 * b.m01 + a.m11 * b.m11 + a.m12 * b.m21 + a.m13 * b.m31,
   a.m10 * b.m02 + a.m11 * b.m12 + a.m12 * b.m22 + a.m13 * b.m32,
   a.m10 * b.m03 + a.m11 * b.m13 + a.m12 * b.m23 + a.m13 * b.m33,
   a.m20 * b.m00 + a.m21 * b.m10 + a.m22 * b.m20 + a.m23 * b.m30,
   a.m20 * b.m01 + a.m21 * b.m11 + a.m22 * b.m21 + a.m23 * b.m31,
   a.m20 * b.m02 + a.m21 * b.m12 + a.m22 * b.m22 + a.m23 * b.m32,
   a.m20 * b.m03 + a.m21 * b.m13 + a.m22 * b.m23 + a.m23 * b.m33,
   a.m30 * b.m00 + a.m31 * b.m10 + a.m32 * b.m20 + a.m33 * b.m30,
   a.m30 * b.m01 + a.m31 * b.m11 + a.m32 * b.m21 + a.m33 * b.m31,
   a.m30 * b.m02 + a.m31 * b.m12 + a.m32 * b.m22 + a.m33 * b.m32,
   a.m30 * b.m03 + a.m31 * b.m13 + a.m32 * b.m23 + a.m33 * b.m33⟩

/-- `struct Viewport { minx, miny, width, height }`. -/
structure Viewport (α : Type) where
  minx : α
  miny : α
  width : α
  height : α
deriving DecidableEq, Repr

/-- `impl Default for Viewport`: `minx = -0.5, miny = -0.5, width = 1.0, height = 1.0`. -/
def Viewport.default : Viewport ℚ :=
  ⟨-0.5, -0.5, 1.0, 1.0⟩

/-- `struct Mesh { faces, style, shader }`: the `HashMap` style is an association
list, the boxed shader closure is an optional Lean function. Both are unused by
the pipeline, exactly as in the source. -/
structure Mesh where
  faces : List (Face ℚ)
  style : List (String × String)
  shader : Option (Nat → ℚ → List (String × String))

/-- `struct Camera { view, projection }`: the nalgebra `Isometry3` and
`Perspective3` wrappers are modelled by their homogeneous matrices, so
`to_homogeneous()` on them is the identity. -/
structure Camera where
  view : Mat4 ℚ
  projection : Mat4 ℚ

/-- `struct Scene { meshes }`. -/
structure Scene where
  meshes : List Mesh

/-- `struct View { camera, scene, viewport }`. -/
structure View where
  camera : Camera
  scene : Scene
  viewport : Viewport ℚ

/-- `struct Engine { views }`. -/
structure Engine where
  views : List View

/-- An `svg` crate `Polygon`: its `points` attribute, kept as the list of
`(x, y)` pairs rather than their decimal rendering. -/
structure Polygon where
  points : List (ℚ × ℚ)
deriving DecidableEq, Repr

/-- An `svg` crate `Group` carrying the five style attributes `create_group`
sets, plus the polygons added to it. -/
structure Group where
  fill : String
  fill_opacity : ℚ
  stroke : String
  stroke_linejoin : String
  stroke_width : ℚ
  polygons : List Polygon
deriving DecidableEq, Repr

/-- An `svg` crate `Document` with the attributes `render` sets and its groups. -/
structure Document where
  viewBox : ℚ × ℚ × ℚ × ℚ
  width : Nat
  height : Nat
  groups : List Group
deriving DecidableEq, Repr

/-- Stage `with_w`: lift every point of every face to homogeneous coordinates. -/
def with_w {α : Type} [One α] (faces : List (Face α)) : List (Vec4 α × Vec4 α × Vec4 α) :=
  faces.map fun face => (face.p1.to_homogeneous, face.p2.to_homogeneous, face.p3.to_homogeneous)

/-- Stage `projected`: multiply each homogeneous point by the combined projection. -/
def projected {α : Type} [One α] [Add α] [Mul α] (projection : Mat4 α)
    (faces : List (Face α)) : List (Vec4 α × Vec4 α × Vec4 α) :=
  (with_w faces).map fun t => (projection.mulVec t.1, projection.mulVec t.2.1, projection.mulVec t.2.2)

/-- Perspective divide of one projected point: `(x / w, y / w, z / w)`. -/
def divide_by_w {α : Type} [Div α] (p : Vec4 α) : Point3 α :=
  ⟨p.x / p.w, p.y / p.w, p.z / p.w⟩

/-- Stage `points_by_w`: perspective-divide every point of every face. -/
def points_by_w {α : Type} [One α] [Add α] [Mul α] [Div α] (projection : Mat4 α)
    (faces : List (Face α)) : List (Face α) :=
  (projected projection faces).map fun t => ⟨divide_by_w t.1, divide_by_w t.2.1, divide_by_w t.2.2⟩

/-- The per-point remap of the `viewport_transformed` stage:
`point.x = (1.0 + point.x) * viewport.width / 2.0 + viewport.minx` and
`point.y = (1.0 - point.y) * viewport.height / 2.0 + viewport.miny`;
`point.z` is not written. -/
def vp_point {α : Type} [Add α] [Sub α] [Mul α] [Div α] [One α] [OfNat α 2]
    (viewport : Viewport α) (p : Point3 α) : Point3 α :=
  ⟨(1 + p.x) * viewport.width / 2 + viewport.minx,
   (1 - p.y) * viewport.height / 2 + viewport.miny,
   p.z⟩

/-- Stage `viewport_transformed`. -/
def viewport_transformed {α : Type} [One α] [Add α] [Sub α] [Mul α] [Div α] [OfNat α 2]
    (projection : Mat4 α) (viewport : Viewport α) (faces : List (Face α)) : List (Face α) :=
  (points_by_w projection faces).map fun face =>
    ⟨vp_point viewport face.p1, vp_point viewport face.p2, vp_point viewport face.p3⟩

/-- Centroid depth of a face: `face.iter().map(|point| point[2]).sum::<f32>() / 3.0`. -/
def z_centroid {α : Type} [Add α] [Div α] [OfNat α 3] (face : Face α) : α :=
  (face.p1.z + face.p2.z + face.p3.z) / 3

/-- `a.partial_cmp(&b)` on exact rationals: the order is total, so the result is
always `some`. -/
def pcmpQ (a b : ℚ) : Option Ordering :=
  some (if a < b then Ordering.lt else if b < a then Ordering.gt else Ordering.eq)

/-- The sort comparator `partial_cmp(..).unwrap_or(Ordering::Equal)` on depth keys. -/
def cmp_or_equal (a b : ℚ) : Ordering :=
  (pcmpQ a b).getD Ordering.eq

/-- Stage `z_centroids`: pair every viewport-mapped face with its centroid depth. -/
def z_centroids (projection : Mat4 ℚ) (viewport : Viewport ℚ) (faces : List (Face ℚ)) :
    List (Face ℚ × ℚ) :=
  (viewport_transformed projection viewport faces).map fun face => (face, z_centroid face)

/-- The order the sort comparator establishes on `(face, centroid)` pairs:
comparing the keys does not return `Greater`. -/
def depth_le (a b : Face ℚ × ℚ) : Prop :=
  cmp_or_equal a.2 b.2 ≠ Ordering.gt

instance : DecidableRel depth_le := fun a b => by
  unfold depth_le
  infer_instance

/-- Stages `sort_unstable_by` (ascending by centroid depth, comparator
`a.1.partial_cmp(&b.1).unwrap_or(Equal)`), `map (face, _) => face`, and
`sorted_faces.reverse()`. The unstable Rust sort is modelled by insertion
sort; both order the keys ascending, ties in unspecified order. -/
def sorted_faces (projection : Mat4 ℚ) (viewport : Viewport ℚ) (faces : List (Face ℚ)) :
    List (Face ℚ) :=
  (((z_centroids projection viewport faces).insertionSort depth_le).map Prod.fst).reverse

/-- The polygon built for one surviving face: its three mapped `(x, y)` pairs. -/
def face_polygon (face : Face ℚ) : Polygon :=
  ⟨[(face.p1.x, face.p1.y), (face.p2.x, face.p2.y), (face.p3.x, face.p3.y)]⟩

/-- The emission loop over `sorted_faces`: a polygon is added iff `winding > 0.0`. -/
def emitted (faces : List (Face ℚ)) : List Polygon :=
  faces.foldl (fun acc face => if winding face > 0 then acc ++ [face_polygon face] else acc) []

/-- `Engine::create_group`: the full per-mesh pipeline, producing the group with
its five fixed style attributes (`fill` white, `fill-opacity` 1.0, `stroke`
black, `stroke-linejoin` round, `stroke-width` 0.005) and the emitted polygons.
The mesh's `style` and `shader` are not consulted (they are commented out in
the source). -/
def Engine.create_group (projection : Mat4 ℚ) (viewport : Viewport ℚ) (mesh : Mesh) : Group :=
  ⟨"white", 1.0, "black", "round", 0.005,
   emitted (sorted_faces projection viewport mesh.faces)⟩

/-- `Engine::render`, as the document value handed to the external sink
(`svg::save` is the external collaborator): a fixed view-box and pixel size,
then one group per `(view, mesh)` pair in input order, each view using
`projection.to_homogeneous() * view.to_homogeneous()` as combined projection. -/
def Engine.render (e : Engine) : Document :=
  ⟨(-0.5, -0.5, 1.0, 1.0), 512, 512,
   e.views.flatMap fun view =>
     view.scene.meshes.map fun mesh =>
       Engine.create_group (view.camera.projection.mul view.camera.view) view.viewport mesh⟩

/-- Extended f32 value for the numeric-degeneracy claims: finite values carry
exact rationals (rounding is not modelled), plus the two signed infinities
(`inf true` is `+∞`) and NaN. The signed zero of IEEE 754 is not
distinguished. -/
inductive F32 where
  | num : ℚ → F32
  | inf : Bool → F32
  | nan : F32
deriving DecidableEq, Repr

namespace F32

/-- IEEE negation. -/
def neg : F32 → F32
  | num q => num (-q)
  | inf s => inf (!s)
  | nan => nan

/-- IEEE addition: NaN absorbs, opposite infinities give NaN. -/
def add : F32 → F32 → F32
  | nan, _ => nan
  | _, nan => nan
  | num a, num b => num (a + b)
  | inf s, num _ => inf s
  | num _, inf s => inf s
  | inf s, inf t => if s = t then inf s else nan

/-- IEEE subtraction, `a + (-b)`. -/
def sub (a b : F32) : F32 :=
  add a (neg b)

/-- IEEE multiplication: NaN absorbs, `0 * ∞` gives NaN. -/
def mul : F32 → F32 → F32
  | nan, _ => nan
  | _, nan => nan
  | num a, num b => num (a * b)
  | inf s, num b => if b = 0 then nan else if 0 < b then inf s else inf (!s)
  | num a, inf s => if a = 0 then nan else if 0 < a then inf s else inf (!s)
  | inf s, inf t => inf (s == t)

/-- IEEE division: a finite nonzero value divided by (the unsigned) zero is a
signed infinity, `0 / 0` and `∞ / ∞` are NaN, finite over infinite is zero. -/
def div : F32 → F32 → F32
  | nan, _ => nan
  | _, nan => nan
  | num a, num b =>
      if b = 0 then (if a = 0 then nan else inf (decide (0 < a)))
      else num (a / b)
  | inf s, num b => if b = 0 then inf s else if 0 < b then inf s else inf (!s)
  | num _, inf _ => num 0
  | inf _, inf _ => nan

/-- `f32::partial_cmp`: `None` exactly when an operand is NaN. -/
def pcmp : F32 → F32 → Option Ordering
  | nan, _ => none
  | _, nan => none
  | num a, num b =>
      some (if a < b then Ordering.lt else if b < a then Ordering.gt else Ordering.eq)
  | num _, inf s => some (if s then Ordering.lt else Ordering.gt)
  | inf s, num _ => some (if s then Ordering.gt else Ordering.lt)
  | inf s, inf t => some (if s = t then Ordering.eq else if s then Ordering.gt else Ordering.lt)

/-- The depth comparator `partial_cmp(..).unwrap_or(Ordering::Equal)` on f32. -/
def cmp_or_eq (a b : F32) : Ordering :=
  (pcmp a b).getD Ordering.eq

/-- Rust `winding > 0.0` on f32: false whenever the comparison is undefined. -/
def gtZero (a : F32) : Bool :=
  pcmp a (num 0) == some Ordering.gt

/-- A value is finite iff it is a `num`. -/
def isFinite : F32 → Bool
  | num _ => true
  | _ => false

instance : Add F32 := ⟨add⟩

instance : Sub F32 := ⟨sub⟩

instance : Mul F32 := ⟨mul⟩

instance : Div F32 := ⟨div⟩

instance : Neg F32 := ⟨neg⟩

instance : One F32 := ⟨num 1⟩

instance : OfNat F32 2 := ⟨num 2⟩

instance : OfNat F32 3 := ⟨num 3⟩

end F32

/-- The depth-comparator order on f32 `(face, centroid)` pairs: comparing the
keys does not return `Greater`; NaN keys compare as `Equal`. -/
def depth_leF (a b : Face F32 × F32) : Prop :=
  F32.cmp_or_eq a.2 b.2 ≠ Ordering.gt

instance : DecidableRel depth_leF := fun a b => by
  unfold depth_leF
  infer_instance

/-- Stage `z_centroids` of `create_group`, over f32 values. -/
def z_centroidsF (projection : Mat4 F32) (viewport : Viewport F32) (faces : List (Face F32)) :
    List (Face F32 × F32) :=
  (viewport_transformed projection viewport faces).map fun face => (face, z_centroid face)

/-- Stages sort, `map (face, _) => face` and `reverse` of `create_group` over
f32 values, with the NaN-absorbing comparator. -/
def sorted_facesF (projection : Mat4 F32) (viewport : Viewport F32) (faces : List (Face F32)) :
    List (Face F32) :=
  (((z_centroidsF projection viewport faces).insertionSort depth_leF).map Prod.fst).reverse

/-- Polygon over f32 coordinates; non-finite values propagate into it. -/
structure PolygonF where
  points : List (F32 × F32)
deriving DecidableEq, Repr

/-- The polygon built for one surviving face, over f32 values. -/
def face_polygonF (face : Face F32) : PolygonF :=
  ⟨[(face.p1.x, face.p1.y), (face.p2.x, face.p2.y), (face.p3.x, face.p3.y)]⟩

/-- The emission loop over f32 values: a polygon is added iff `winding > 0.0`. -/
def emittedF (faces : List (Face F32)) : List PolygonF :=
  faces.foldl (fun acc face => if F32.gtZero (winding face) then acc ++ [face_polygonF face] else acc) []

/-- The polygons of `Engine::create_group` over f32 values: the whole per-mesh
pipeline on extended values. -/
def create_groupF (projection : Mat4 F32) (viewport : Viewport F32) (faces : List (Face F32)) :
    List PolygonF :=
  emittedF (sorted_facesF projection viewport faces)

/-- `nalgebra::Perspective3::new(aspect, fovy, znear, zfar)`, as its
homogeneous matrix over ℝ: `set_fovy` writes `m11 = 1 / tan(fovy / 2)` — the
angle goes to `tan` unconverted, hence in radians — `set_aspect` writes
`m00 = m11 / aspect`, `set_znear_and_zfar` writes `m22` and `m23`, and the
constructor writes `m32 = -1`, `m33 = 0`. -/
noncomputable def Perspective3.new (aspect fovy znear zfar : ℝ) : Mat4 ℝ :=
  ⟨(1 / Real.tan (fovy / 2)) / aspect, 0, 0, 0,
   0, 1 / Real.tan (fovy / 2), 0, 0,
   0, 0, (zfar + znear) / (znear - zfar), zfar * znear * 2 / (znear - zfar),
   0, 0, -1, 0⟩

/-- The projection component of
`Camera::new(fovy, aspect, near, far, from, to, up)`:
`Perspective3::new(aspect, fovy, near, far)` — the fovy argument is passed
through unchanged. (The look-at view component plays no role in the claims
about the projection.) -/
noncomputable def Camera.new_projection (fovy aspect near far : ℝ) : Mat4 ℝ :=
  Perspective3.new aspect fovy near far

/-- Spec-side definition, for comparison with the source-side one: the
perspective projection whose vertical field of view is `fovy` degrees, i.e.
the matrix for the angle `fovy * π / 180` radians. -/
noncomputable def spec_perspective_fovy_degrees (fovy aspect near far : ℝ) : Mat4 ℝ :=
  Perspective3.new aspect (fovy * Real.pi / 180) near far

/-- The identity matrix, a concrete fixture for evaluations. -/
def Mat4.identity : Mat4 ℚ :=
  ⟨1, 0, 0, 0, 0, 1, 0, 0, 0, 0, 1, 0, 0, 0, 0, 1⟩

/-! ### Helper lemmas -/

/-- On exact rationals the comparator refuses `Greater` exactly on `a ≤ b`. -/
theorem cmp_or_equal_ne_gt_iff {a b : ℚ} : cmp_or_equal a b ≠ Ordering.gt ↔ a ≤ b := by
  unfold cmp_or_equal pcmpQ
  split_ifs with h1 h2
  · simpa using le_of_lt h1
  · simpa using not_le.mpr h2
  · simpa using le_of_not_lt h2

/-- The emission loop is the filter by strictly positive winding, mapped to
polygons. -/
theorem emitted_eq_filter (faces : List (Face ℚ)) :
    emitted faces = (faces.filter fun f => decide (0 < winding f)).map face_polygon := by
  have aux : ∀ (l : List (Face ℚ)) (acc : List Polygon),
      l.foldl (fun acc face => if winding face > 0 then acc ++ [face_polygon face] else acc) acc
        = acc ++ (l.filter fun f => decide (0 < winding f)).map face_polygon := by
    intro l
    induction l with
    | nil => intro acc; simp
    | cons f t ih =>
      intro acc
      by_cases h : 0 < winding f
      · simp [List.foldl_cons, h, ih, List.filter_cons]
      · simp [List.foldl_cons, h, ih, List.filter_cons]
  simpa using aux faces []

/-- The sorted pair list is pairwise ordered by the comparator order. -/
theorem insertionSort_depth_le_pairwise (pairs : List (Face ℚ × ℚ)) :
    (pairs.insertionSort depth_le).Pairwise depth_le := by
  haveI : IsTotal (Face ℚ × ℚ) depth_le := ⟨fun a b => by
    unfold depth_le
    rw [cmp_or_equal_ne_gt_iff, cmp_or_equal_ne_gt_iff]
    exact le_total a.2 b.2⟩
  haveI : IsTrans (Face ℚ × ℚ) depth_le := ⟨fun a b c hab hbc => by
    unfold depth_le at hab hbc ⊢
    rw [cmp_or_equal_ne_gt_iff] at hab hbc ⊢
    exact le_trans hab hbc⟩
  exact List.sorted_insertionSort depth_le pairs

/-! ### Claim theorems -/

/-- Claim C1: a face reaching the emission stage yields a polygon iff its
winding is strictly positive — the polygons are exactly the positive-winding
filter of the depth-ordered faces — every face with winding ≤ 0 is silently
dropped, so a mesh whose every mapped face has winding ≤ 0 yields a group with
zero polygons, while the document is still produced with that group in it. -/
theorem emission_iff_winding_pos :
    ∀ (projection : Mat4 ℚ) (viewport : Viewport ℚ) (mesh : Mesh) (camera : Camera),
      (Engine.create_group projection viewport mesh).polygons =
        ((sorted_faces projection viewport mesh.faces).filter
          fun f => decide (0 < winding f)).map face_polygon
      ∧ ((∀ f ∈ sorted_faces projection viewport mesh.faces, winding f ≤ 0) →
          (Engine.create_group projection viewport mesh).polygons = [])
      ∧ (Engine.render ⟨[⟨camera, ⟨[mesh]⟩, viewport⟩]⟩).groups =
          [Engine.create_group (camera.projection.mul camera.view) viewport mesh] := by
  intro projection viewport mesh camera
  refine ⟨emitted_eq_filter _, ?_, rfl⟩
  intro h
  show emitted _ = []
  rw [emitted_eq_filter]
  have hnil : (sorted_faces projection viewport mesh.faces).filter
      (fun f => decide (0 < winding f)) = [] := by
    rw [List.filter_eq_nil_iff]
    intro f hf
    simpa using not_lt.mpr (h f hf)
  rw [hnil]
  rfl

/-- Witness for C1: a single clockwise face (winding of its mapped image is
-1/4) produces a group with zero polygons. -/
theorem emission_iff_winding_pos_witness :
    (Engine.create_group Mat4.identity Viewport.default
      ⟨[⟨⟨0, 0, 0⟩, ⟨1, 0, 0⟩, ⟨0, 1, 0⟩⟩], [], none⟩).polygons = [] :=
  (emission_iff_winding_pos Mat4.identity Viewport.default
    ⟨[⟨⟨0, 0, 0⟩, ⟨1, 0, 0⟩, ⟨0, 1, 0⟩⟩], [], none⟩
    ⟨Mat4.identity, Mat4.identity⟩).2.1 (by
      norm_num [sorted_faces, z_centroids, viewport_transformed, points_by_w, projected,
        with_w, vp_point, divide_by_w, Mat4.mulVec, Point3.to_homogeneous, Mat4.identity,
        Viewport.default, winding, Point3.vsub, Vector3.cross, z_centroid])

/-- Claim C2: the viewport mapping stage sends each perspective-divided point
`(x, y, z)` to exactly `((1 + x) * width / 2 + minx, (1 - y) * height / 2 + miny, z)`,
leaves `z` unchanged, and the stage is the pointwise application of this map to
the divided faces. -/
theorem viewport_map_formula :
    ∀ (viewport : Viewport ℚ) (x y z : ℚ) (p : Point3 ℚ) (projection : Mat4 ℚ)
      (faces : List (Face ℚ)),
      vp_point viewport ⟨x, y, z⟩ =
        ⟨(1 + x) * viewport.width / 2 + viewport.minx,
         (1 - y) * viewport.height / 2 + viewport.miny, z⟩
      ∧ (vp_point viewport p).z = p.z
      ∧ viewport_transformed projection viewport faces =
          (points_by_w projection faces).map fun face =>
            ⟨vp_point viewport face.p1, vp_point viewport face.p2, vp_point viewport face.p3⟩ :=
  fun _ _ _ _ _ _ _ => ⟨rfl, rfl, rfl⟩

/-- Claim C3: the depth key of a face is the mean of its three mapped z values,
and the face order reaching emission is a permutation of the viewport-mapped
faces that is pairwise descending in centroid depth (farthest first, nearest
last) — ascending sort then reversal. -/
theorem depth_order_desc :
    ∀ (projection : Mat4 ℚ) (viewport : Viewport ℚ) (faces : List (Face ℚ)),
      (∀ face : Face ℚ, z_centroid face = (face.p1.z + face.p2.z + face.p3.z) / 3)
      ∧ (sorted_faces projection viewport faces).Pairwise
          (fun f g => z_centroid g ≤ z_centroid f)
      ∧ (sorted_faces projection viewport faces).Perm
          (viewport_transformed projection viewport faces) := by
  intro projection viewport faces
  refine ⟨fun _ => rfl, ?_, ?_⟩
  · unfold sorted_faces
    rw [List.pairwise_reverse, List.pairwise_map]
    have hsorted := insertionSort_depth_le_pairwise (z_centroids projection viewport faces)
    have hmem : ∀ x ∈ (z_centroids projection viewport faces).insertionSort depth_le,
        x.2 = z_centroid x.1 := by
      intro x hx
      have hx2 : x ∈ z_centroids projection viewport faces :=
        (List.perm_insertionSort depth_le _).subset hx
      unfold z_centroids at hx2
      obtain ⟨face, _, rfl⟩ := List.mem_map.mp hx2
      rfl
    refine hsorted.imp_of_mem ?_
    intro a b ha hb hab
    have h2 : a.2 ≤ b.2 := cmp_or_equal_ne_gt_iff.mp hab
    rw [hmem a ha, hmem b hb] at h2
    exact h2
  · unfold sorted_faces
    refine (List.reverse_perm _).trans ?_
    refine ((List.perm_insertionSort depth_le _).map Prod.fst).trans ?_
    unfold z_centroids
    rw [List.map_map]
    have hid : (Prod.fst ∘ fun face : Face ℚ => (face, z_centroid face)) = id := rfl
    rw [hid, List.map_id]

/-- Claim C4 counterexample: with the default viewport the mapping does send
`(0,0)` to `(0,0)`, but it sends `(-1,-1)` to `(-0.5, 0.5)`, not `(-1, 0)`,
and `(1,1)` to `(0.5, -0.5)`, not `(0, -1)`. -/
theorem viewport_default_maps_counterexample :
    vp_point Viewport.default ⟨0, 0, 0⟩ = (⟨0, 0, 0⟩ : Point3 ℚ)
    ∧ vp_point Viewport.default ⟨-1, -1, 0⟩ ≠ (⟨-1, 0, 0⟩ : Point3 ℚ)
    ∧ vp_point Viewport.default ⟨1, 1, 0⟩ ≠ (⟨0, -1, 0⟩ : Point3 ℚ) := by
  refine ⟨?_, ?_, ?_⟩ <;> norm_num [vp_point, Viewport.default, Point3.mk.injEq]

/-- Claim C4 amended: with the default viewport
(minx = -0.5, miny = -0.5, width = 1, height = 1), the mapping sends `(0,0)`
to `(0,0)`, `(-1,-1)` to `(-0.5, 0.5)`, and `(1,1)` to `(0.5, -0.5)`,
each with z passed through. -/
theorem viewport_default_maps :
    ∀ z : ℚ,
      vp_point Viewport.default ⟨0, 0, z⟩ = (⟨0, 0, z⟩ : Point3 ℚ)
      ∧ vp_point Viewport.default ⟨-1, -1, z⟩ = (⟨-0.5, 0.5, z⟩ : Point3 ℚ)
      ∧ vp_point Viewport.default ⟨1, 1, z⟩ = (⟨0.5, -0.5, z⟩ : Point3 ℚ) := by
  intro z
  refine ⟨?_, ?_, ?_⟩ <;> norm_num [vp_point, Viewport.default, Point3.mk.injEq]

/-- Claim C7: the winding of a face equals the 2D signed-area expression
`(p2.x - p1.x) * (p3.y - p1.y) - (p2.y - p1.y) * (p3.x - p1.x)`, and it is
unchanged when the three z coordinates are replaced by any other values. -/
theorem winding_signed_area :
    ∀ (face : Face ℚ) (z1 z2 z3 : ℚ),
      winding face =
        (face.p2.x - face.p1.x) * (face.p3.y - face.p1.y)
          - (face.p2.y - face.p1.y) * (face.p3.x - face.p1.x)
      ∧ winding (Face.mk ⟨face.p1.x, face.p1.y, z1⟩ ⟨face.p2.x, face.p2.y, z2⟩
          ⟨face.p3.x, face.p3.y, z3⟩) = winding face :=
  fun _ _ _ _ => ⟨rfl, rfl⟩

/-- Claim C8: a face in which two of the three points coincide has winding
exactly 0, and such a face is dropped by the emission loop — removing it from
the emission-stage list leaves the emitted polygons unchanged — with no error
raised. -/
theorem degenerate_face_dropped :
    ∀ face : Face ℚ,
      face.p1 = face.p2 ∨ face.p1 = face.p3 ∨ face.p2 = face.p3 →
      winding face = 0
      ∧ ∀ pre post : List (Face ℚ), emitted (pre ++ face :: post) = emitted (pre ++ post) := by
  intro face h
  have hw : winding face = 0 := by
    obtain ⟨⟨x1, y1, w1⟩, ⟨x2, y2, w2⟩, ⟨x3, y3, w3⟩⟩ := face
    simp only [Point3.mk.injEq] at h
    show (x2 - x1) * (y3 - y1) - (y2 - y1) * (x3 - x1) = 0
    rcases h with ⟨hx, hy, _⟩ | ⟨hx, hy, _⟩ | ⟨hx, hy, _⟩ <;> subst hx <;> subst hy <;> ring
  refine ⟨hw, ?_⟩
  intro pre post
  rw [emitted_eq_filter, emitted_eq_filter]
  have hfalse : decide (0 < winding face) = false := by
    rw [hw]
    rfl
  simp [List.filter_append, List.filter_cons, hfalse]

/-- Witness for C8: a concrete face with its first two points coincident. -/
theorem degenerate_face_dropped_witness :
    winding (Face.mk ⟨0, 0, 0⟩ ⟨0, 0, 0⟩ ⟨1, 2, 3⟩ : Face ℚ) = 0
    ∧ emitted [Face.mk ⟨0, 0, 0⟩ ⟨0, 0, 0⟩ ⟨1, 2, 3⟩] = emitted [] :=
  ⟨(degenerate_face_dropped ⟨⟨0, 0, 0⟩, ⟨0, 0, 0⟩, ⟨1, 2, 3⟩⟩ (Or.inl rfl)).1,
   (degenerate_face_dropped ⟨⟨0, 0, 0⟩, ⟨0, 0, 0⟩, ⟨1, 2, 3⟩⟩ (Or.inl rfl)).2 [] []⟩

/-- Claim C9: rendering is deterministic — the document is a pure function of
the input views; equal view collections give equal documents. -/
theorem render_deterministic :
    ∀ e1 e2 : Engine, e1.views = e2.views → Engine.render e1 = Engine.render e2 := by
  intro e1 e2 h
  obtain ⟨v1⟩ := e1
  obtain ⟨v2⟩ := e2
  cases h
  rfl

/-- Witness for C9 at a concrete engine. -/
theorem render_deterministic_witness :
    Engine.render ⟨[]⟩ = Engine.render ⟨[]⟩ :=
  render_deterministic ⟨[]⟩ ⟨[]⟩ rfl

/-- Claim C10: every rendered document has view-box `(-0.5, -0.5, 1.0, 1.0)`
and pixel size 512 × 512, and every group carries the fixed style attributes
(fill white, fill-opacity 1.0, stroke black, stroke-linejoin round,
stroke-width 0.005), independent of the views' viewports and the meshes'
style maps and shaders. -/
theorem render_fixed_attributes :
    ∀ e : Engine,
      (Engine.render e).viewBox = (-0.5, -0.5, 1.0, 1.0)
      ∧ (Engine.render e).width = 512
      ∧ (Engine.render e).height = 512
      ∧ ∀ g ∈ (Engine.render e).groups,
          g.fill = "white" ∧ g.fill_opacity = 1.0 ∧ g.stroke = "black"
            ∧ g.stroke_linejoin = "round" ∧ g.stroke_width = 0.005 := by
  intro e
  refine ⟨rfl, rfl, rfl, ?_⟩
  intro g hg
  have hg2 : g ∈ e.views.flatMap fun view =>
      view.scene.meshes.map fun mesh =>
        Engine.create_group (view.camera.projection.mul view.camera.view) view.viewport mesh := hg
  obtain ⟨view, _, hm⟩ := List.mem_flatMap.mp hg2
  obtain ⟨mesh, _, rfl⟩ := List.mem_map.mp hm
  exact ⟨rfl, rfl, rfl, rfl, rfl⟩

/-- Witness for C10 at a concrete one-view, one-mesh engine. -/
theorem render_fixed_attributes_witness :
    (Engine.create_group (Mat4.identity.mul Mat4.identity) Viewport.default
        ⟨[], [], none⟩).fill = "white"
    ∧ (Engine.create_group (Mat4.identity.mul Mat4.identity) Viewport.default
        ⟨[], [], none⟩).fill_opacity = 1.0
    ∧ (Engine.create_group (Mat4.identity.mul Mat4.identity) Viewport.default
        ⟨[], [], none⟩).stroke = "black"
    ∧ (Engine.create_group (Mat4.identity.mul Mat4.identity) Viewport.default
        ⟨[], [], none⟩).stroke_linejoin = "round"
    ∧ (Engine.create_group (Mat4.identity.mul Mat4.identity) Viewport.default
        ⟨[], [], none⟩).stroke_width = 0.005 :=
  (render_fixed_attributes
    ⟨[⟨⟨Mat4.identity, Mat4.identity⟩, ⟨[⟨[], [], none⟩]⟩, Viewport.default⟩]⟩).2.2.2
    (Engine.create_group (Mat4.identity.mul Mat4.identity) Viewport.default ⟨[], [], none⟩)
    (List.Mem.head _)

/-- Claim C6: numeric degeneracy is absorbed, not an error — the depth
comparator returns `Equal` whenever a NaN makes the comparison undefined, a
finite value divided by zero is non-finite rather than a fault, and the
per-mesh pipeline delivers every input face, finite or not, to the emission
stage (the depth-ordered list is a permutation of the mapped faces). -/
theorem numeric_degeneracy_absorbed :
    (∀ a b : F32, a = F32.nan ∨ b = F32.nan → F32.cmp_or_eq a b = Ordering.eq)
    ∧ (∀ x : F32, x.isFinite = true → (x.div (F32.num 0)).isFinite = false)
    ∧ ∀ (projection : Mat4 F32) (viewport : Viewport F32) (faces : List (Face F32)),
        (sorted_facesF projection viewport faces).Perm
          (viewport_transformed projection viewport faces) := by
  refine ⟨?_, ?_, ?_⟩
  · intro a b h
    rcases h with rfl | rfl
    · cases b <;> rfl
    · cases a <;> rfl
  · intro x hx
    cases x with
    | num q =>
      by_cases hq : q = 0
      · simp [F32.div, F32.isFinite, hq]
      · simp [F32.div, F32.isFinite, hq]
    | inf s => simp [F32.isFinite] at hx
    | nan => simp [F32.isFinite] at hx
  · intro projection viewport faces
    unfold sorted_facesF
    refine (List.reverse_perm _).trans ?_
    refine ((List.perm_insertionSort depth_leF _).map Prod.fst).trans ?_
    unfold z_centroidsF
    rw [List.map_map]
    have hid : (Prod.fst ∘ fun face : Face F32 => (face, z_centroid face)) = id := rfl
    rw [hid, List.map_id]

/-- Witness for C6: the comparator on a NaN key. -/
theorem numeric_degeneracy_absorbed_witness :
    F32.cmp_or_eq F32.nan (F32.num 0) = Ordering.eq :=
  numeric_degeneracy_absorbed.1 F32.nan (F32.num 0) (Or.inl rfl)

/-- Claim C5 counterexample: at fovy = 1 (inside (0, 180)), aspect = 1,
near = 1, far = 2, the projection `Camera::new` builds is not the projection
with a 1-degree vertical field of view: the fovy argument reaches `tan`
unconverted, i.e. it is consumed in radians. -/
theorem camera_new_fovy_not_degrees :
    (0 : ℝ) < 1 ∧ (1 : ℝ) < 180
    ∧ Camera.new_projection 1 1 1 2 ≠ spec_perspective_fovy_degrees 1 1 1 2 := by
  refine ⟨one_pos, by norm_num, ?_⟩
  intro h
  have h11 : 1 / Real.tan ((1 : ℝ) / 2) = 1 / Real.tan (1 * Real.pi / 180 / 2) := by
    have := congrArg Mat4.m11 h
    exact this
  have harg : (1 : ℝ) * Real.pi / 180 / 2 = Real.pi / 360 := by ring
  rw [harg] at h11
  have hpi3 := Real.pi_gt_three
  have hpi4 := Real.pi_lt_four
  have hs : 0 < Real.tan (Real.pi / 360) :=
    Real.tan_pos_of_pos_of_lt_pi_div_two (by linarith) (by linarith)
  have ht : 0 < Real.tan ((1 : ℝ) / 2) :=
    Real.tan_pos_of_pos_of_lt_pi_div_two (by norm_num) (by linarith)
  rw [div_eq_div_iff (ne_of_gt ht) (ne_of_gt hs)] at h11
  have heq : Real.tan (Real.pi / 360) = Real.tan ((1 : ℝ) / 2) := by linarith
  have hlt : Real.tan (Real.pi / 360) < Real.tan ((1 : ℝ) / 2) := by
    apply Real.strictMonoOn_tan (Set.mem_Ioo.mpr ⟨by linarith, by linarith⟩)
      (Set.mem_Ioo.mpr ⟨by linarith, by linarith⟩)
    linarith
  exact ne_of_lt hlt heq

/-- Claim C5 amended: `Camera::new` interprets its fovy argument in radians —
for every fovy in (0, π), the vertical field of view recovered from the
projection it constructs, `2 * arctan (1 / m11)`, is fovy itself. -/
theorem camera_new_fovy_radians :
    ∀ fovy aspect near far : ℝ, 0 < fovy → fovy < Real.pi →
      2 * Real.arctan (1 / (Camera.new_projection fovy aspect near far).m11) = fovy := by
  intro fovy aspect near far h1 h2
  have hm : (Camera.new_projection fovy aspect near far).m11 = 1 / Real.tan (fovy / 2) := rfl
  rw [hm, one_div_one_div,
    Real.arctan_tan (by linarith [Real.pi_pos]) (by linarith)]
  ring

/-- Witness for the amended C5, at fovy = 1 radian. -/
theorem camera_new_fovy_radians_witness :
    2 * Real.arctan (1 / (Camera.new_projection 1 1 1 2).m11) = 1 :=
  camera_new_fovy_radians 1 1 1 2 one_pos (lt_trans (by norm_num) Real.pi_gt_three)

end Svg3d
